import Mathlib

/-!
Shallow embedding of the `dummy_ui` identity-verification wizard screens:
`src/components/DocumentBackCapture.tsx` and `src/components/CountrySelection.tsx`.

The React components are embedded as pure step functions on an explicit
screen-state record.  Each handler returns the updated state together with the
ordered list of externally visible effects (camera calls, API calls, wizard
callbacks, object-URL releases) it performs, so temporal claims become
statements about the returned event trace.  Outcomes of the two asynchronous
API calls (`kycApiService.processDocument`, `kycApiService.processOCRDocument`)
are passed in as parameters ranging over "resolved with a value" and
"promise rejected (thrown)", the two outcomes a JavaScript `await` can observe.
-/

/-- `CapturedImage` from `src/types/kyc`: binary blob, ephemeral object URL,
capture timestamp.  The blob is opaque to the component, so it is modelled as
a string token; the timestamp as a natural number. -/
structure CapturedImage where
  blob : String
  url : String
  timestamp : Nat
deriving Repr, DecidableEq

/-- The `type` field of a `CaptureError`: `'validation' | 'network'`. -/
inductive ErrorCategory where
  | validation
  | network
deriving Repr, DecidableEq

/-- `CaptureError` from `src/components/ErrorPage`: category, human-readable
message, remediation tips. -/
structure CaptureError where
  type : ErrorCategory
  message : String
  tips : List String
deriving Repr, DecidableEq

/-- The `useState` cells of `DocumentBackCapture`.  `Option` models the
`T | null` types; `none` is `null`. -/
structure ScreenState where
  capturedImage : Option CapturedImage
  isCapturing : Bool
  isUploading : Bool
  uploadError : Option String
  isClearImage : Bool
  captureError : Option CaptureError
deriving Repr, DecidableEq

/-- The initial values of the six `useState` calls. -/
def initialState : ScreenState :=
  { capturedImage := none
    isCapturing := false
    isUploading := false
    uploadError := none
    isClearImage := false
    captureError := none }

/-- The camera-hook state consumed by the component (`useCamera`). -/
structure CameraState where
  isStreaming : Bool
  isLoading : Bool
deriving Repr, DecidableEq

/-- Externally visible effects of the document-back capture screen, in the
order the handlers perform them. -/
inductive Event where
  | startCamera
  | stopCamera
  | onCapture (img : CapturedImage)
  | onNext
  | onError (msg : String)
  | revokeObjectURL (url : String)
  | processDocument (blob : String)
  | processOCRDocument (blob : String)
deriving Repr, DecidableEq

/-- The quality-check response body: its `message` field may be absent
(`none`) or present (`some s`, where `s` may be the empty string). -/
structure DocResponse where
  message : Option String
deriving Repr, DecidableEq

/-- A thrown (rejected-promise) error as the catch block reads it:
`error?.response?.data?.message` and `error?.message`, each possibly absent
or empty. -/
structure JsError where
  responseDataMessage : Option String
  message : Option String
deriving Repr, DecidableEq

/-- Outcome of `await kycApiService.processDocument(...)`. -/
inductive DocOutcome where
  | ok (resp : DocResponse)
  | thrown (e : JsError)
deriving Repr, DecidableEq

/-- Outcome of `await kycApiService.processOCRDocument(...)`.  The resolved
value is bound to `ocrResponse` but never read, so it is not modelled. -/
inductive OcrOutcome where
  | ok
  | thrown (e : JsError)
deriving Repr, DecidableEq

/-- JavaScript `x || d` for an optional string `x`: absent (`undefined`) and
the empty string are both falsy and fall through to the default. -/
def jsOrString : Option String → String → String
  | none, d => d
  | some "", d => d
  | some s, _ => s

/-- Literal `'Document is not clear. Please retake.'` from the rejection
branch. -/
def defaultRejectMsg : String := "Document is not clear. Please retake."

/-- Literal `'Network error. Please try again.'` from the catch branch. -/
def defaultNetworkMsg : String := "Network error. Please try again."

/-- Tips attached to a validation `CaptureError`. -/
def validationTips : List String :=
  ["Ensure the document is fully visible.", "Avoid glare or shadows."]

/-- Tips attached to a network `CaptureError`. -/
def networkTips : List String :=
  ["Check your internet connection.", "Try again later."]

/-- `error?.response?.data?.message || error?.message || 'Network error.
Please try again.'` from the catch block. -/
def jsErrorMessage (e : JsError) : String :=
  jsOrString e.responseDataMessage (jsOrString e.message defaultNetworkMsg)

/-- The state writes `handleCheckQuality` performs before awaiting the
quality-check call: `setIsUploading(true); setUploadError(null);
setIsClearImage(false); setCaptureError(null)`. -/
def checkQualityStart (s : ScreenState) : ScreenState :=
  { s with isUploading := true, uploadError := none,
           isClearImage := false, captureError := none }

/-- The catch block of `handleCheckQuality`: derives the message, records a
network-category `CaptureError`, and calls the optional `onError` prop. -/
def catchBranch (hasOnError : Bool) (s : ScreenState) (e : JsError) :
    ScreenState × List Event :=
  let errorMessage := jsErrorMessage e
  ({ s with uploadError := some errorMessage,
            captureError :=
              some { type := .network, message := errorMessage,
                     tips := networkTips } },
   if hasOnError then [Event.onError errorMessage] else [])

/-- The else branch of `handleCheckQuality`: records the response message
verbatim (or the generic rejection message when empty/absent) as a
validation-category `CaptureError` and calls the optional `onError` prop. -/
def rejectBranch (hasOnError : Bool) (s : ScreenState) (resp : DocResponse) :
    ScreenState × List Event :=
  let msg := jsOrString resp.message defaultRejectMsg
  ({ s with uploadError := some msg,
            captureError :=
              some { type := .validation, message := msg,
                     tips := validationTips } },
   if hasOnError then [Event.onError msg] else [])

/-- `handleCheckQuality(image)` of `DocumentBackCapture`, with the outcomes
of the two awaited API calls passed in.  `hasOnError` records whether the
optional `onError` prop was supplied.  Returns the final state and the
ordered effect trace.  Note the `await kycApiService.processOCRDocument`
sits inside the `try` block: an OCR rejection is handled by the same catch
block and skips `stopCamera()`/`onNext()`. -/
def handleCheckQuality (hasOnError : Bool) (s : ScreenState)
    (image : CapturedImage) (doc : DocOutcome) (ocr : OcrOutcome) :
    ScreenState × List Event :=
  let s := checkQualityStart s
  let (s, evs) :=
    match doc with
    | .ok resp =>
      if resp.message = some "CLEAR IMAGE" then
        let s := { s with isClearImage := true }
        match ocr with
        | .ok =>
          (s, [Event.processDocument image.blob,
               Event.processOCRDocument image.blob,
               Event.stopCamera, Event.onNext])
        | .thrown e =>
          let (s, catchEvs) := catchBranch hasOnError s e
          (s, [Event.processDocument image.blob,
               Event.processOCRDocument image.blob] ++ catchEvs)
      else
        let (s, rejEvs) := rejectBranch hasOnError s resp
        (s, [Event.processDocument image.blob] ++ rejEvs)
    | .thrown e =>
      let (s, catchEvs) := catchBranch hasOnError s e
      (s, [Event.processDocument image.blob] ++ catchEvs)
  ({ s with isUploading := false }, evs)

/-- The state write `handleCapture` performs before awaiting
`captureImage()`: `setIsCapturing(true)`. -/
def captureStart (s : ScreenState) : ScreenState :=
  { s with isCapturing := true }

/-- `handleCapture` of `DocumentBackCapture`: `result` is the outcome of
`await captureImage()` (`none` when the hook returns nothing); on success the
captured image is stored, `onCapture` fires, and `handleCheckQuality` runs. -/
def handleCapture (hasOnError : Bool) (s : ScreenState)
    (result : Option CapturedImage) (doc : DocOutcome) (ocr : OcrOutcome) :
    ScreenState × List Event :=
  let s := captureStart s
  let (s, evs) :=
    match result with
    | some image =>
      let s := { s with capturedImage := some image }
      let (s, qEvs) := handleCheckQuality hasOnError s image doc ocr
      (s, [Event.onCapture image] ++ qEvs)
    | none => (s, ([] : List Event))
  ({ s with isCapturing := false }, evs)

/-- `handleRetake` of `DocumentBackCapture`: revokes the prior captured
image's object URL (when present), clears the image and all error state, and
restarts the camera.  It performs no upload and no OCR call. -/
def handleRetake (s : ScreenState) : ScreenState × List Event :=
  let revokeEvs :=
    match s.capturedImage with
    | some img => [Event.revokeObjectURL img.url]
    | none => ([] : List Event)
  ({ s with capturedImage := none, uploadError := none,
            isClearImage := false, captureError := none },
   revokeEvs ++ [Event.startCamera])

/-- The `onRetry`/`onBack` handlers of the embedded `ErrorPage`:
`setCaptureError(null)` followed by `handleRetake()`. -/
def errorPageRetry (s : ScreenState) : ScreenState × List Event :=
  handleRetake { s with captureError := none }

/-- The capture button is rendered only while no image is captured
(`{!capturedImage && ...}`). -/
def captureButtonRendered (s : ScreenState) : Bool :=
  s.capturedImage.isNone

/-- The capture button's `disabled={!isStreaming || isCapturing ||
isUploading}` expression. -/
def captureDisabled (cam : CameraState) (s : ScreenState) : Bool :=
  !cam.isStreaming || s.isCapturing || s.isUploading

/-- The capture action is available exactly when its button is rendered and
not disabled. -/
def captureEnabled (cam : CameraState) (s : ScreenState) : Bool :=
  captureButtonRendered s && !captureDisabled cam s

/-! ## CountrySelection -/

/-- A record of `src/helper/metadata.json` as `CountrySelection` reads it:
at least a `country` name and a `country_code`. -/
structure CountryRecord where
  country : String
  country_code : String
deriving Repr, DecidableEq

/-- One step of building a JavaScript `Map` from key/value pairs:
`Map.prototype.set` overwrites the value of an existing key in place
(keeping its original position) and appends a fresh key at the end. -/
def insertEntry : List (String × String) → String → String →
    List (String × String)
  | [], k, v => [(k, v)]
  | (k', v') :: rest, k, v =>
    if k' = k then (k', v) :: rest else (k', v') :: insertEntry rest k v

/-- `Array.from(new Map(pairs).entries())`: entries in first-insertion key
order, each key bound to the value of its last occurrence. -/
def jsMapEntries (pairs : List (String × String)) : List (String × String) :=
  pairs.foldl (fun m kv => insertEntry m kv.1 kv.2) []

/-- `.sort((a, b) => a[1].localeCompare(b[1]))`: the entry list sorted by
display name under the locale-aware comparator.  `le a b` stands for
`a.localeCompare(b) <= 0`; the sort is modelled by insertion sort, which
like the JavaScript engine's sort produces some name-ordered permutation. -/
def sortByName (le : String → String → Bool) (l : List (String × String)) :
    List (String × String) :=
  List.insertionSort (fun a b => le a.2 b.2 = true) l

/-- The `countries` list built by `CountrySelection`: map each metadata
record to the pair `[country_code, country]`, deduplicate through a
JavaScript `Map`, and sort the entries by display name. -/
def countries (le : String → String → Bool) (metadata : List CountryRecord) :
    List (String × String) :=
  sortByName le
    (jsMapEntries (metadata.map fun item => (item.country_code, item.country)))

/-- The value bound to `k` by the rightmost pair with key `k`, if any. -/
def findLast (pairs : List (String × String)) (k : String) : Option String :=
  (pairs.reverse.find? fun kv => kv.1 = k).map fun kv => kv.2

/-- The name carried by the last metadata record (in table order) whose
`country_code` equals `code`, if any. -/
def lastNameFor (metadata : List CountryRecord) (code : String) :
    Option String :=
  findLast (metadata.map fun item => (item.country_code, item.country)) code

/-- Effects of the `CountrySelection` change handler. -/
inductive CSEvent where
  | selectCountryCode (code : String)
  | scheduleOnNext (delayMs : Nat)
deriving Repr, DecidableEq

/-- `handleChange` of `CountrySelection`: always forwards the selected value
to `onSelectCountryCode`; when the value is truthy (non-empty), schedules
`onNext` once via `setTimeout(() => onNext(), 100)`. -/
def handleChange (value : String) : List CSEvent :=
  [CSEvent.selectCountryCode value] ++
    (if value ≠ "" then [CSEvent.scheduleOnNext 100] else [])

/-- Comparator used to instantiate the locale-aware comparison in concrete
witnesses: a total, transitive comparison on names. -/
def strLe (a b : String) : Bool := a.length ≤ b.length

/-- Metadata sample with a duplicated country code, used in concrete
witnesses. -/
def mdSample : List CountryRecord :=
  [{ country := "USA", country_code := "US" },
   { country := "India", country_code := "IN" },
   { country := "United States", country_code := "US" }]

/-! ## Helper lemmas -/

theorem keys_insertEntry (m : List (String × String)) (k v : String) :
    (insertEntry m k v).map Prod.fst
      = if k ∈ m.map Prod.fst then m.map Prod.fst
        else m.map Prod.fst ++ [k] := by
  induction m with
  | nil => simp [insertEntry]
  | cons a rest ih =>
    cases a with
    | mk k' v' =>
      by_cases hk : k' = k
      · subst hk
        simp [insertEntry]
      · simp only [insertEntry, if_neg hk, List.map_cons, ih]
        by_cases hmem : k ∈ rest.map Prod.fst
        · simp [hmem, hk]
        · simp [hmem, hk, Ne.symm hk]

theorem nodup_keys_insertEntry (m : List (String × String)) (k v : String)
    (h : (m.map Prod.fst).Nodup) :
    ((insertEntry m k v).map Prod.fst).Nodup := by
  rw [keys_insertEntry]
  by_cases hmem : k ∈ m.map Prod.fst
  · simpa [hmem] using h
  · simp only [if_neg hmem]
    simpa [List.nodup_append, hmem] using h

theorem mem_insertEntry_self (m : List (String × String)) (k v v' : String)
    (h : (m.map Prod.fst).Nodup) :
    ((k, v') ∈ insertEntry m k v ↔ v' = v) := by
  induction m with
  | nil => simp [insertEntry, Prod.ext_iff]
  | cons a rest ih =>
    cases a with
    | mk k₀ v₀ =>
      simp only [List.map_cons, List.nodup_cons] at h
      obtain ⟨hk₀, hrest⟩ := h
      by_cases hhead : k₀ = k
      · subst hhead
        have hnot : (k₀, v') ∉ rest := fun hmem =>
          hk₀ (List.mem_map_of_mem Prod.fst hmem)
        simp [insertEntry, Prod.ext_iff, hnot]
      · have hne : k ≠ k₀ := Ne.symm hhead
        simp [insertEntry, hhead, ih hrest, Prod.ext_iff, hne]

theorem mem_insertEntry_other (m : List (String × String))
    (k v k' v' : String) (hne : k' ≠ k) :
    ((k', v') ∈ insertEntry m k v ↔ (k', v') ∈ m) := by
  induction m with
  | nil => simp [insertEntry, Prod.ext_iff, hne]
  | cons a rest ih =>
    cases a with
    | mk k₀ v₀ =>
      by_cases hhead : k₀ = k
      · subst hhead
        have hne' : k' ≠ k₀ := hne
        simp [insertEntry, Prod.ext_iff, hne']
      · simp [insertEntry, hhead, Prod.ext_iff, ih]

theorem findLast_cons (k₀ v₀ : String) (t : List (String × String))
    (k : String) :
    findLast ((k₀, v₀) :: t) k
      = ((findLast t k).or (if k₀ = k then some v₀ else none)) := by
  simp only [findLast, List.reverse_cons, List.find?_append]
  cases hf : t.reverse.find? fun kv => kv.1 = k with
  | none =>
    by_cases hk : k₀ = k <;> simp [List.find?, hk]
  | some kv => simp

theorem mem_foldl_insertEntry (pairs : List (String × String)) :
    ∀ (m : List (String × String)), (m.map Prod.fst).Nodup →
    ∀ k v, ((k, v) ∈ pairs.foldl (fun m kv => insertEntry m kv.1 kv.2) m ↔
      (match findLast pairs k with
       | some w => v = w
       | none => (k, v) ∈ m)) := by
  induction pairs with
  | nil => intro m hm k v; simp [findLast]
  | cons a t ih =>
    intro m hm k v
    cases a with
    | mk k₀ v₀ =>
      rw [List.foldl_cons]
      rw [ih (insertEntry m k₀ v₀) (nodup_keys_insertEntry m k₀ v₀ hm) k v]
      rw [findLast_cons]
      cases hf : findLast t k with
      | some w => simp
      | none =>
        by_cases hk : k₀ = k
        · subst hk
          simp [mem_insertEntry_self m k₀ v₀ v hm]
        · have hne : k ≠ k₀ := Ne.symm hk
          simp [hk, mem_insertEntry_other m k₀ v₀ k v hne]

theorem nodup_keys_foldl_insertEntry (pairs : List (String × String)) :
    ∀ m : List (String × String), (m.map Prod.fst).Nodup →
    (((pairs.foldl (fun m kv => insertEntry m kv.1 kv.2) m).map
      Prod.fst).Nodup) := by
  induction pairs with
  | nil => intro m hm; simpa using hm
  | cons a t ih =>
    intro m hm
    rw [List.foldl_cons]
    exact ih _ (nodup_keys_insertEntry m a.1 a.2 hm)

theorem nodup_keys_jsMapEntries (pairs : List (String × String)) :
    ((jsMapEntries pairs).map Prod.fst).Nodup :=
  nodup_keys_foldl_insertEntry pairs [] (by simp)

theorem mem_jsMapEntries (pairs : List (String × String)) (k v : String) :
    ((k, v) ∈ jsMapEntries pairs ↔ findLast pairs k = some v) := by
  rw [jsMapEntries, mem_foldl_insertEntry pairs [] (by simp) k v]
  cases hf : findLast pairs k with
  | none => simp
  | some w => simp [eq_comm]

theorem strLe_total : ∀ a b, strLe a b = true ∨ strLe b a = true := by
  intro a b
  rcases Nat.le_total a.length b.length with h | h
  · exact Or.inl (by simpa [strLe] using h)
  · exact Or.inr (by simpa [strLe] using h)

theorem strLe_trans : ∀ a b c,
    strLe a b = true → strLe b c = true → strLe a c = true := by
  intro a b c hab hbc
  simp only [strLe, decide_eq_true_eq] at hab hbc ⊢
  exact Nat.le_trans hab hbc

/-! ## Claim theorems -/

/-- C1 (counterexample): the claim "for every API response whose message is
exactly CLEAR IMAGE, the screen invokes onNext exactly once" is false as
stated.  Because `await kycApiService.processOCRDocument` sits inside the
`try` block, a quality-check response of `CLEAR IMAGE` followed by a
rejected OCR promise runs the catch block instead: `onNext` is invoked zero
times and `stopCamera` never fires. -/
theorem C1_counterexample :
    (handleCheckQuality true initialState
        { blob := "b", url := "u", timestamp := 0 }
        (.ok { message := some "CLEAR IMAGE" })
        (.thrown { responseDataMessage := none, message := none })).2.count
      Event.onNext = 0
    ∧ Event.stopCamera ∉
        (handleCheckQuality true initialState
          { blob := "b", url := "u", timestamp := 0 }
          (.ok { message := some "CLEAR IMAGE" })
          (.thrown { responseDataMessage := none, message := none })).2 := by
  decide

/-- C1 (amended): for every API response whose message is exactly
`CLEAR IMAGE`, provided the subsequent awaited OCR call resolves, the screen
performs exactly the trace quality-upload, OCR-upload, `stopCamera`,
`onNext` — so `onNext` fires exactly once and `stopCamera` strictly before
it; if instead the OCR call throws, `onNext` is not invoked at all. -/
theorem C1_clear_image_advances_unless_ocr_throws (hasOnError : Bool)
    (s : ScreenState) (img : CapturedImage) (resp : DocResponse)
    (h : resp.message = some "CLEAR IMAGE") :
    (handleCheckQuality hasOnError s img (.ok resp) .ok).2
      = [Event.processDocument img.blob, Event.processOCRDocument img.blob,
         Event.stopCamera, Event.onNext]
    ∧ (handleCheckQuality hasOnError s img (.ok resp) .ok).2.count
        Event.onNext = 1
    ∧ ∀ e, (handleCheckQuality hasOnError s img
        (.ok resp) (.thrown e)).2.count Event.onNext = 0 := by
  refine ⟨?_, ?_, ?_⟩
  · simp [handleCheckQuality, h]
  · simp [handleCheckQuality, h, List.count_cons]
  · intro e
    cases hOE : hasOnError <;>
      simp [handleCheckQuality, h, catchBranch, List.count_cons]

/-- C1 (witness): the amended theorem applied at a concrete accepted
response. -/
theorem C1_witness :
    (handleCheckQuality true initialState
        { blob := "b", url := "u", timestamp := 0 }
        (.ok { message := some "CLEAR IMAGE" }) .ok).2.count Event.onNext
      = 1 :=
  (C1_clear_image_advances_unless_ocr_throws true initialState
    { blob := "b", url := "u", timestamp := 0 }
    { message := some "CLEAR IMAGE" } rfl).2.1

/-- C2 (counterexample): the claim "the wizard still advances via onNext for
every possible outcome of the OCR call, and an OCR failure is never surfaced
to the user" is false as stated.  When the OCR promise rejects, the catch
block runs: `onNext` is not invoked and the OCR failure is surfaced to the
user as a network-category `CaptureError`. -/
theorem C2_counterexample :
    (handleCheckQuality true initialState
        { blob := "b2", url := "u2", timestamp := 0 }
        (.ok { message := some "CLEAR IMAGE" })
        (.thrown { responseDataMessage := none,
                   message := some "OCR service unreachable" })).2.count
      Event.onNext = 0
    ∧ (handleCheckQuality true initialState
        { blob := "b2", url := "u2", timestamp := 0 }
        (.ok { message := some "CLEAR IMAGE" })
        (.thrown { responseDataMessage := none,
                   message := some "OCR service unreachable" })).1.captureError
      = some { type := .network, message := "OCR service unreachable",
               tips := networkTips } := by
  constructor
  · decide
  · decide

/-- C2 (amended): the OCR submission is fired only on the path where the
quality-check response message is exactly `CLEAR IMAGE`; when the OCR call
resolves, its value is ignored and the wizard advances via `onNext` exactly
once; but when the OCR call throws, the wizard does not advance and the
failure is surfaced as a network-category error. -/
theorem C2_ocr_after_acceptance_only (hasOnError : Bool) (s : ScreenState)
    (img : CapturedImage) (doc : DocOutcome) (ocr : OcrOutcome) :
    (∀ b, Event.processOCRDocument b ∈
        (handleCheckQuality hasOnError s img doc ocr).2 →
      doc = DocOutcome.ok { message := some "CLEAR IMAGE" } ∧ b = img.blob)
    ∧ (doc = DocOutcome.ok { message := some "CLEAR IMAGE" } →
        ocr = OcrOutcome.ok →
        (handleCheckQuality hasOnError s img doc ocr).2.count Event.onNext
          = 1)
    ∧ (∀ e, doc = DocOutcome.ok { message := some "CLEAR IMAGE" } →
        ocr = OcrOutcome.thrown e →
        (handleCheckQuality hasOnError s img doc ocr).2.count Event.onNext
            = 0
        ∧ (handleCheckQuality hasOnError s img doc ocr).1.captureError
            = some { type := .network, message := jsErrorMessage e,
                     tips := networkTips }) := by
  refine ⟨?_, ?_, ?_⟩
  · intro b hb
    cases doc with
    | ok resp =>
      by_cases hm : resp.message = some "CLEAR IMAGE"
      · have hr : resp = ⟨some "CLEAR IMAGE"⟩ := by cases resp; simpa using hm
        subst hr
        refine ⟨rfl, ?_⟩
        cases ocr with
        | ok => simp [handleCheckQuality] at hb; simpa using hb
        | thrown e =>
          cases hOE : hasOnError <;>
            · simp [handleCheckQuality, catchBranch, hOE] at hb
              simpa using hb
      · cases hOE : hasOnError <;>
          simp [handleCheckQuality, hm, rejectBranch, hOE] at hb
    | thrown e =>
      cases hOE : hasOnError <;>
        simp [handleCheckQuality, catchBranch, hOE] at hb
  · intro hd ho
    subst hd; subst ho
    simp [handleCheckQuality, List.count_cons]
  · intro e hd ho
    subst hd; subst ho
    cases hOE : hasOnError <;>
      simp [handleCheckQuality, catchBranch, checkQualityStart,
        List.count_cons]

/-- C2 (witness): the amended theorem applied at concrete inputs — the
OCR-only-after-acceptance part at a run whose trace contains the OCR call,
and the throw part at a concrete rejected OCR promise. -/
theorem C2_witness :
    DocOutcome.ok { message := some "CLEAR IMAGE" }
        = DocOutcome.ok { message := some "CLEAR IMAGE" }
    ∧ (handleCheckQuality false initialState
        { blob := "b", url := "u", timestamp := 0 }
        (.ok { message := some "CLEAR IMAGE" })
        (.thrown { responseDataMessage := none, message := none })).2.count
      Event.onNext = 0 := by
  refine ⟨?_, ?_⟩
  · exact ((C2_ocr_after_acceptance_only true initialState
      { blob := "b", url := "u", timestamp := 0 }
      (.ok { message := some "CLEAR IMAGE" }) .ok).1 "b" (by decide)).1
  · exact ((C2_ocr_after_acceptance_only false initialState
      { blob := "b", url := "u", timestamp := 0 }
      (.ok { message := some "CLEAR IMAGE" })
      (.thrown { responseDataMessage := none, message := none })).2.2
      { responseDataMessage := none, message := none } rfl rfl).1

/-- C3 (confirmed): the accepted flag is set if and only if the response
message is exactly the sentinel `CLEAR IMAGE`; any other message yields a
validation rejection carrying the message (with the generic fallback), an
empty or absent message falls back to the generic rejection message, and a
thrown failure never marks the image as clear. -/
theorem C3_acceptance_iff_clear_image (hasOnError : Bool) (s : ScreenState)
    (img : CapturedImage) (resp : DocResponse) (ocr : OcrOutcome) :
    ((handleCheckQuality hasOnError s img (.ok resp) ocr).1.isClearImage
        = true ↔ resp.message = some "CLEAR IMAGE")
    ∧ (resp.message ≠ some "CLEAR IMAGE" →
        (handleCheckQuality hasOnError s img (.ok resp) ocr).1.captureError
          = some { type := .validation,
                   message := jsOrString resp.message defaultRejectMsg,
                   tips := validationTips })
    ∧ ((resp.message = none ∨ resp.message = some "") →
        (handleCheckQuality hasOnError s img (.ok resp) ocr).1.uploadError
          = some defaultRejectMsg)
    ∧ (∀ e ocr2, (handleCheckQuality hasOnError s img
        (.thrown e) ocr2).1.isClearImage = false) := by
  refine ⟨?_, ?_, ?_, ?_⟩
  · by_cases hm : resp.message = some "CLEAR IMAGE"
    · cases ocr <;>
        simp [handleCheckQuality, hm, catchBranch, checkQualityStart]
    · simp [handleCheckQuality, hm, rejectBranch, checkQualityStart]
  · intro hm
    simp [handleCheckQuality, hm, rejectBranch, checkQualityStart]
  · intro hm
    have hne : resp.message ≠ some "CLEAR IMAGE" := by
      rcases hm with h | h <;> simp [h]
    rcases hm with h | h <;>
      simp [handleCheckQuality, hne, rejectBranch, checkQualityStart, h,
        jsOrString]
  · intro e ocr2
    simp [handleCheckQuality, catchBranch, checkQualityStart]

/-- C3 (witness): the theorem applied at a concrete rejected response and at
a concrete absent-message response. -/
theorem C3_witness :
    (handleCheckQuality true initialState
        { blob := "b", url := "u", timestamp := 0 }
        (.ok { message := some "Blurry image" }) .ok).1.captureError
      = some { type := .validation,
               message := jsOrString (some "Blurry image") defaultRejectMsg,
               tips := validationTips }
    ∧ (handleCheckQuality true initialState
        { blob := "b", url := "u", timestamp := 0 }
        (.ok { message := none }) .ok).1.uploadError
      = some defaultRejectMsg := by
  refine ⟨?_, ?_⟩
  · exact (C3_acceptance_iff_clear_image true initialState
      { blob := "b", url := "u", timestamp := 0 }
      { message := some "Blurry image" } .ok).2.1 (by decide)
  · exact (C3_acceptance_iff_clear_image true initialState
      { blob := "b", url := "u", timestamp := 0 }
      { message := none } .ok).2.2.1 (Or.inl rfl)

/-- C4 (confirmed): every non-`CLEAR IMAGE` response produces a
validation-category `CaptureError` carrying the response message verbatim
when non-empty (the generic rejection message otherwise); every thrown
failure produces a network-category `CaptureError` with connectivity tips,
whose message is the generic `Network error. Please try again.` when the
thrown error carries no message at all. -/
theorem C4_error_categorization (hasOnError : Bool) (s : ScreenState)
    (img : CapturedImage) (resp : DocResponse) (ocr : OcrOutcome)
    (e : JsError) :
    (resp.message ≠ some "CLEAR IMAGE" →
      (handleCheckQuality hasOnError s img (.ok resp) ocr).1.captureError
        = some { type := .validation,
                 message := jsOrString resp.message defaultRejectMsg,
                 tips := validationTips }
      ∧ (∀ m, resp.message = some m → m ≠ "" →
          jsOrString resp.message defaultRejectMsg = m))
    ∧ ((handleCheckQuality hasOnError s img (.thrown e) ocr).1.captureError
        = some { type := .network, message := jsErrorMessage e,
                 tips := networkTips })
    ∧ (e.responseDataMessage = none → e.message = none →
        jsErrorMessage e = defaultNetworkMsg) := by
  refine ⟨?_, ?_, ?_⟩
  · intro hm
    refine ⟨by simp [handleCheckQuality, hm, rejectBranch,
      checkQualityStart], ?_⟩
    intro m hsome hne
    rw [hsome]
    cases m with
    | mk data =>
      cases data with
      | nil => simp at hne
      | cons c cs => simp [jsOrString]
  · simp [handleCheckQuality, catchBranch, checkQualityStart]
  · intro h1 h2
    simp [jsErrorMessage, h1, h2, jsOrString]

/-- C4 (witness): the theorem applied at a concrete rejection message and at
a concrete message-less thrown error. -/
theorem C4_witness :
    jsOrString (some "Blurry image") defaultRejectMsg = "Blurry image"
    ∧ jsErrorMessage { responseDataMessage := none, message := none }
        = defaultNetworkMsg := by
  refine ⟨?_, ?_⟩
  · exact ((C4_error_categorization true initialState
      { blob := "b", url := "u", timestamp := 0 }
      { message := some "Blurry image" } .ok
      { responseDataMessage := none, message := none }).1 (by decide)).2
      "Blurry image" rfl (by decide)
  · exact (C4_error_categorization true initialState
      { blob := "b", url := "u", timestamp := 0 }
      { message := some "Blurry image" } .ok
      { responseDataMessage := none, message := none }).2.2 rfl rfl

/-- C5 (confirmed): when a captured image is present, `handleRetake` clears
`uploadError`, `captureError` and the captured image, performs exactly the
trace revoke-object-URL followed by `startCamera` (so the display resource
is released before the camera restarts), and in the resulting state the
capture button can only be enabled once the camera stream is active. -/
theorem C5_retake_clears_state (s : ScreenState) (img : CapturedImage)
    (h : s.capturedImage = some img) :
    (handleRetake s).1.uploadError = none
    ∧ (handleRetake s).1.captureError = none
    ∧ (handleRetake s).1.capturedImage = none
    ∧ (handleRetake s).2 = [Event.revokeObjectURL img.url, Event.startCamera]
    ∧ (∀ cam, captureEnabled cam (handleRetake s).1 = true →
        cam.isStreaming = true) := by
  refine ⟨by simp [handleRetake], by simp [handleRetake],
    by simp [handleRetake], by simp [handleRetake, h], ?_⟩
  intro cam hen
  cases hcs : cam.isStreaming with
  | true => rfl
  | false =>
    simp [handleRetake, captureEnabled, captureButtonRendered,
      captureDisabled, hcs] at hen

/-- C5 (witness): the theorem applied at a concrete post-rejection state. -/
theorem C5_witness :
    (handleRetake
      { initialState with
          capturedImage := some { blob := "b", url := "u", timestamp := 0 },
          uploadError := some "Blurry image",
          captureError := some { type := .validation,
                                 message := "Blurry image",
                                 tips := validationTips } }).2
      = [Event.revokeObjectURL "u", Event.startCamera] :=
  (C5_retake_clears_state _ { blob := "b", url := "u", timestamp := 0 }
    rfl).2.2.2.1

/-- C6 (confirmed): the retake action performs no upload and no OCR call,
and the OCR submission occurs only on the path where the quality-check
response message is exactly `CLEAR IMAGE` (with the freshly captured
image's own blob). -/
theorem C6_retake_never_triggers_ocr :
    (∀ s b, Event.processOCRDocument b ∉ (handleRetake s).2
      ∧ Event.processDocument b ∉ (handleRetake s).2)
    ∧ (∀ hasOnError s img doc ocr b,
        Event.processOCRDocument b ∈
          (handleCheckQuality hasOnError s img doc ocr).2 →
        doc = DocOutcome.ok { message := some "CLEAR IMAGE" }
          ∧ b = img.blob) := by
  constructor
  · intro s b
    cases hc : s.capturedImage <;> simp [handleRetake, hc]
  · intro hasOnError s img doc ocr b hb
    cases doc with
    | ok resp =>
      by_cases hm : resp.message = some "CLEAR IMAGE"
      · have hr : resp = ⟨some "CLEAR IMAGE"⟩ := by cases resp; simpa using hm
        subst hr
        refine ⟨rfl, ?_⟩
        cases ocr with
        | ok => simp [handleCheckQuality] at hb; simpa using hb
        | thrown e =>
          cases hOE : hasOnError <;>
            · simp [handleCheckQuality, catchBranch, hOE] at hb
              simpa using hb
      · cases hOE : hasOnError <;>
          simp [handleCheckQuality, hm, rejectBranch, hOE] at hb
    | thrown e =>
      cases hOE : hasOnError <;>
        simp [handleCheckQuality, catchBranch, hOE] at hb

/-- C6 (witness): the theorem applied at a concrete retake and at a concrete
accepted run whose trace contains the OCR call. -/
theorem C6_witness :
    Event.processOCRDocument "b" ∉ (handleRetake initialState).2
    ∧ "b" = "b" := by
  refine ⟨?_, ?_⟩
  · exact (C6_retake_never_triggers_ocr.1 initialState "b").1
  · exact (C6_retake_never_triggers_ocr.2 true initialState
      { blob := "b", url := "u", timestamp := 0 }
      (.ok { message := some "CLEAR IMAGE" }) .ok "b" (by decide)).2

/-- C7 (confirmed): for every content of the metadata table and every total,
transitive comparator (the locale-aware name comparison), the country list
built by `CountrySelection` has no two entries with the same country code
and is sorted ascending by display name under that comparator. -/
theorem C7_countries_nodup_sorted (le : String → String → Bool)
    (htot : ∀ a b, le a b = true ∨ le b a = true)
    (htrans : ∀ a b c, le a b = true → le b c = true → le a c = true)
    (metadata : List CountryRecord) :
    ((countries le metadata).map Prod.fst).Nodup
    ∧ (countries le metadata).Pairwise (fun a b => le a.2 b.2 = true) := by
  constructor
  · have hperm : List.Perm (countries le metadata)
        (jsMapEntries (metadata.map fun item =>
          (item.country_code, item.country))) :=
      List.perm_insertionSort _ _
    exact ((hperm.map Prod.fst).nodup_iff).mpr
      (nodup_keys_jsMapEntries _)
  · haveI : IsTotal (String × String) (fun a b => le a.2 b.2 = true) :=
      ⟨fun a b => htot a.2 b.2⟩
    haveI : IsTrans (String × String) (fun a b => le a.2 b.2 = true) :=
      ⟨fun a b c => htrans a.2 b.2 c.2⟩
    exact List.sorted_insertionSort (fun a b => le a.2 b.2 = true)
      (jsMapEntries (metadata.map fun item =>
        (item.country_code, item.country)))

/-- C7 (witness): the theorem applied to a concrete comparator and a
concrete metadata table containing a duplicated code. -/
theorem C7_witness :
    ((countries strLe mdSample).map Prod.fst).Nodup
    ∧ (countries strLe mdSample).Pairwise
        (fun a b => strLe a.2 b.2 = true) :=
  C7_countries_nodup_sorted strLe strLe_total strLe_trans mdSample

/-- C8 (confirmed): for every non-empty selected value, the change handler
forwards the value to `onSelectCountryCode` and then schedules `onNext`
exactly once, after the fixed 100 ms delay. -/
theorem C8_selection_advances_once (value : String) (h : value ≠ "") :
    handleChange value
      = [CSEvent.selectCountryCode value, CSEvent.scheduleOnNext 100]
    ∧ (handleChange value).count (CSEvent.scheduleOnNext 100) = 1 := by
  refine ⟨by simp [handleChange, h], ?_⟩
  simp [handleChange, h, List.count_cons]

/-- C8 (witness): the theorem applied at a concrete selection. -/
theorem C8_witness :
    handleChange "US"
      = [CSEvent.selectCountryCode "US", CSEvent.scheduleOnNext 100] :=
  (C8_selection_advances_once "US" (by decide)).1

/-- C9 (confirmed): the capture action is unavailable whenever the stream is
not active, a capture is in progress, or an upload is outstanding; in
particular it is unavailable in the in-flight states entered by
`handleCapture` (`setIsCapturing(true)`) and `handleCheckQuality`
(`setIsUploading(true)`), so overlapping quality-check submissions cannot be
initiated. -/
theorem C9_single_capture_in_flight (cam : CameraState) (s : ScreenState) :
    ((cam.isStreaming = false ∨ s.isCapturing = true ∨ s.isUploading = true)
      → captureEnabled cam s = false)
    ∧ captureEnabled cam (checkQualityStart s) = false
    ∧ captureEnabled cam (captureStart s) = false := by
  refine ⟨?_, ?_, ?_⟩
  · intro hcase
    rcases hcase with h | h | h <;>
      simp [captureEnabled, captureButtonRendered, captureDisabled, h]
  · simp [captureEnabled, captureButtonRendered, captureDisabled,
      checkQualityStart]
  · simp [captureEnabled, captureButtonRendered, captureDisabled,
      captureStart]

/-- C9 (witness): the theorem applied at a concrete inactive-stream state. -/
theorem C9_witness :
    captureEnabled { isStreaming := false, isLoading := true } initialState
      = false :=
  (C9_single_capture_in_flight { isStreaming := false, isLoading := true }
    initialState).1 (Or.inl rfl)

/-- C10 (confirmed): an entry `(code, name)` appears in the country list
exactly when `name` is the country name of the last metadata record (in
table order) carrying `code` — later duplicates overwrite earlier ones
during deduplication. -/
theorem C10_last_duplicate_wins (le : String → String → Bool)
    (metadata : List CountryRecord) (code name : String) :
    ((code, name) ∈ countries le metadata →
        lastNameFor metadata code = some name)
    ∧ (lastNameFor metadata code = some name →
        (code, name) ∈ countries le metadata) := by
  have hiff : (code, name) ∈ countries le metadata
      ↔ findLast (metadata.map fun item =>
          (item.country_code, item.country)) code = some name := by
    unfold countries sortByName
    rw [List.mem_insertionSort, mem_jsMapEntries]
  exact ⟨fun h => hiff.mp h, fun h => hiff.mpr h⟩

/-- C10 (witness): the theorem applied at a concrete table in which the code
`US` occurs twice with different names; the list entry carries the name of
the later record. -/
theorem C10_witness :
    lastNameFor mdSample "US" = some "United States" :=
  (C10_last_duplicate_wins strLe mdSample "US" "United States").1 (by decide)
